import Mathlib

/-!
Shallow embedding of the LaraShell AI autocomplete engine
(src/larashell/src/ai/autocomplete.rs) together with proofs about its
specification.  Time is modelled as natural numbers counting
milliseconds (Rust `Instant`/`Duration`); the remote Azure OpenAI
client is modelled as an oracle function from the user prompt to a
response or an error.  String manipulation is re-implemented by
structural recursion over the character list so that all definitions
reduce in the kernel; the helpers mirror the Rust standard library
operations used by the source (trimming ASCII whitespace, ASCII
lower-casing, byte-wise starts-with, splitting on the newline
character followed by trimming, which agrees with Rust `lines()` on
every input this pipeline can observe).
-/

namespace LaraShell

/-- List-of-characters trim: drop whitespace from both ends
(Rust `str::trim`, whose whitespace set restricted to the characters
Lean knows is space, tab, carriage return, newline). -/
def trimList (l : List Char) : List Char :=
  ((l.dropWhile Char.isWhitespace).reverse.dropWhile Char.isWhitespace).reverse

/-- Rust `str::trim` on strings. -/
def strTrim (s : String) : String := ⟨trimList s.data⟩

/-- Rust `str::to_lowercase` (faithful on the ASCII range, which is all
the static tables in the source use). -/
def strLower (s : String) : String := ⟨s.data.map Char.toLower⟩

/-- Holds of `p` and `l` when the character list `p` is an initial
segment of `l` (Rust `str::starts_with` at character level). -/
def pfxList : List Char → List Char → Bool
  | [], _ => true
  | _ :: _, [] => false
  | a :: as, b :: bs => a == b && pfxList as bs

/-- Rust `s.starts_with(p)`. -/
def strStarts (s p : String) : Bool := pfxList p.data s.data

/-- Split a character list at newline characters (the separator is
dropped; a trailing newline yields a trailing empty piece, which the
parsing pipeline below filters out, so this agrees with Rust
`str::lines` wherever the pipeline uses it). -/
def lineSplit : List Char → List (List Char)
  | [] => [[]]
  | c :: cs =>
    match lineSplit cs with
    | [] => [[c]]
    | h :: t => if c == '\n' then [] :: h :: t else (c :: h) :: t

/-! ## Rate limiter (struct RateLimiter) -/

/-- Rust `struct RateLimiter`: recorded attempt timestamps (oldest
first, as pushed onto the Vec), the admission limit, and the window
length in milliseconds. -/
structure RateLimiter where
  timestamps : List Nat
  max_requests : Nat
  window : Nat
  deriving DecidableEq, Repr

/-- Rust `RateLimiter::new`: empty history, fixed 60-second (60000 ms)
window. -/
def RateLimiter.new (max_requests : Nat) : RateLimiter :=
  ⟨[], max_requests, 60000⟩

/-- Rust `RateLimiter::allow_request`, with the current instant passed
explicitly: drop timestamps outside the window (Nat subtraction
saturates exactly like `Instant::duration_since`), then admit and
record `now` iff the remaining count is below the limit. -/
def RateLimiter.allow_request (rl : RateLimiter) (now : Nat) : Bool × RateLimiter :=
  let kept := rl.timestamps.filter (fun ts => decide (now - ts < rl.window))
  if kept.length < rl.max_requests then
    (true, ⟨kept ++ [now], rl.max_requests, rl.window⟩)
  else
    (false, ⟨kept, rl.max_requests, rl.window⟩)

/-- Rust `RateLimiter::time_until_available`: no pruning happens here; the
stored list is compared against the limit as-is, and the wait is
computed from the first (oldest) stored timestamp, clamped at zero. -/
def RateLimiter.time_until_available (rl : RateLimiter) (now : Nat) : Option Nat :=
  if rl.timestamps.length < rl.max_requests then
    none
  else
    rl.timestamps.head?.map (fun oldest =>
      let elapsed := now - oldest
      if elapsed < rl.window then rl.window - elapsed else 0)

/-- Run `allow_request` once per element of `times`, collecting the
results in order together with the final limiter state. -/
def allowSeq (rl : RateLimiter) : List Nat → List Bool × RateLimiter
  | [] => ([], rl)
  | t :: ts =>
    let step := rl.allow_request t
    let rest := allowSeq step.2 ts
    (step.1 :: rest.1, rest.2)

/-! ## Cache (HashMap<String, CachedSuggestion>) -/

/-- Rust `struct CachedSuggestion`. -/
structure CachedSuggestion where
  suggestions : List String
  expires_at : Nat
  deriving DecidableEq, Repr

/-- The cache is an unordered map from the literal input string to a
cached suggestion; we model it as an association list with distinct
keys.  The list order stands in for the HashMap's unspecified
iteration order. -/
abbrev Cache := List (String × CachedSuggestion)

/-- Rust `AutocompleteEngine::get_from_cache` (with the instant explicit):
look the exact input up and return the suggestions only while
`now < expires_at`. -/
def get_from_cache (cache : Cache) (input : String) (now : Nat) : Option (List String) :=
  match cache.find? (fun e => e.1 == input) with
  | none => none
  | some e => if now < e.2.expires_at then some e.2.suggestions else none

/-- Configuration snapshot (struct AiConfig), restricted to the fields
the engine core reads; durations are in their source units
(milliseconds for the debounce, seconds for the TTL). -/
structure AiConfig where
  enabled : Bool
  debounce_ms : Nat
  max_requests_per_minute : Nat
  cache_ttl_secs : Nat
  max_cache_entries : Nat
  use_fallback : Bool
  deriving DecidableEq, Repr

/-- The expiry sweep of `add_to_cache`: `cache.retain(expires_at > now)`. -/
def sweepExpired (cache : Cache) (now : Nat) : Cache :=
  cache.filter (fun e => decide (now < e.2.expires_at))

/-- The capacity eviction of `add_to_cache`: collect the keys of the
first `len/4` entries (the HashMap iteration's arbitrary order is
modelled by the list order) and remove the entries under them. -/
def evictQuarter (cache : Cache) : Cache :=
  cache.filter (fun e => decide (¬ e.1 ∈ (cache.take (cache.length / 4)).map Prod.fst))

/-- Rust `HashMap::insert`: replace any entry under the same key, else add
the new entry. -/
def insertEntry (cache : Cache) (k : String) (v : CachedSuggestion) : Cache :=
  cache.filter (fun e => !(e.1 == k)) ++ [(k, v)]

/-- Rust `AutocompleteEngine::add_to_cache`: when at or above capacity,
first sweep expired entries; if still at or above capacity drop the
first `len/4` entries by key; finally insert the new entry with
`expires_at = now + ttl`. -/
def add_to_cache (cfg : AiConfig) (cache : Cache) (input : String)
    (sugg : List String) (now : Nat) : Cache :=
  let cache1 : Cache :=
    if cfg.max_cache_entries ≤ cache.length then
      if cfg.max_cache_entries ≤ (sweepExpired cache now).length then
        evictQuarter (sweepExpired cache now)
      else sweepExpired cache now
    else cache
  insertEntry cache1 input ⟨sugg, now + cfg.cache_ttl_secs * 1000⟩

/-! ## Client and suggestion parsing -/

/-- The error type `ClientError` from src/larashell/src/ai/client.rs (the payload of
`RequestFailed` is an opaque HTTP-library error and is dropped). -/
inductive ClientError where
  | requestFailed
  | apiError (status : Nat) (message : String)
  | parseError (message : String)
  | timeout
  | rateLimited
  deriving DecidableEq, Repr

/-- Result type returned by the engine (struct SuggestionResult). -/
structure SuggestionResult where
  suggestions : List String
  from_cache : Bool
  is_fallback : Bool
  deriving DecidableEq, Repr

/-- The remote Azure OpenAI client, as the engine sees it: possibly
absent (`client: Option<AzureOpenAiClient>`), and when present a
function from the user prompt to a response text or a `ClientError`. -/
def Remote := Option (String → Except ClientError String)

/-- The user prompt `fetch_suggestions` builds for a given input. -/
def userPrompt (input : String) : String :=
  "Complete this terminal command: " ++ input

/-- A leading bullet or number marker character (`-`, `*`, `.`,
digits), as stripped by the response parser. -/
def isMarker (c : Char) : Bool :=
  c == '-' || c == '*' || c == '.' || c.isDigit

/-- The response-parsing pipeline of `fetch_suggestions`: lines,
trimmed, non-empty, leading markers stripped then re-trimmed,
non-empty again, first five. -/
def parseSuggestions (response : String) : List String :=
  (((((lineSplit response.data).map trimList).filter (fun l => !l.isEmpty)).map
      (fun l => trimList (l.dropWhile isMarker))).filter (fun l => !l.isEmpty)).take 5
    |>.map (fun l => String.mk l)

/-- Rust `AutocompleteEngine::fetch_suggestions`: fail when no client is
configured, otherwise ask the oracle with the built prompt and parse
a successful response. -/
def fetch_suggestions (remote : Remote) (input : String) :
    Except ClientError (List String) :=
  match remote with
  | none => .error (.apiError 503 "AI client not initialized")
  | some f =>
    match f (userPrompt input) with
    | .error e => .error e
    | .ok response => .ok (parseSuggestions response)

/-! ## Fallback heuristic -/

/-- The static pattern table of `get_fallback_suggestions`, verbatim. -/
def fallbackRows : List (String × List String) := [
  ("git ", ["git status", "git add", "git commit", "git push", "git pull"]),
  ("git c", ["git commit -m \"", "git checkout", "git clone", "git cherry-pick"]),
  ("git p", ["git push", "git pull", "git push origin"]),
  ("git s", ["git status", "git stash", "git show"]),
  ("npm ", ["npm install", "npm run", "npm start", "npm test"]),
  ("npm r", ["npm run", "npm run dev", "npm run build", "npm run test"]),
  ("npm i", ["npm install", "npm init"]),
  ("cargo ", ["cargo build", "cargo run", "cargo test", "cargo check"]),
  ("cargo b", ["cargo build", "cargo build --release"]),
  ("cargo r", ["cargo run", "cargo run --release"]),
  ("cargo t", ["cargo test", "cargo test --", "cargo tree"]),
  ("docker ", ["docker ps", "docker images", "docker run", "docker build"]),
  ("docker p", ["docker ps", "docker pull", "docker push"]),
  ("docker r", ["docker run", "docker rm", "docker rmi"]),
  ("cd ", ["cd ..", "cd ~", "cd -"]),
  ("ls ", ["ls -la", "ls -l", "ls -a"]),
  ("mkdir ", ["mkdir -p"]),
  ("rm ", ["rm -rf", "rm -r"]),
  ("cat ", ["cat"]),
  ("grep ", ["grep -r", "grep -i", "grep -rn"]),
  ("find ", ["find . -name", "find . -type f", "find . -type d"]),
  ("ps ", ["ps aux", "ps -ef"]),
  ("kill ", ["kill -9"]),
  ("chmod ", ["chmod +x", "chmod 755", "chmod 644"]),
  ("ssh ", ["ssh -i"]),
  ("scp ", ["scp -r"]),
  ("curl ", ["curl -X GET", "curl -X POST", "curl -H"]),
  ("wget ", ["wget -O"]),
  ("tar ", ["tar -xvf", "tar -cvf", "tar -xzf"]),
  ("python ", ["python -m", "python -c"]),
  ("pip ", ["pip install", "pip list", "pip freeze"])]

/-- The single-character dispatch table used when no pattern row
produced a suggestion. -/
def charDispatch (c : Char) : List String :=
  match c with
  | 'g' => ["git", "grep", "go"]
  | 'c' => ["cd", "cat", "cargo", "curl", "cp"]
  | 'd' => ["docker", "df", "du", "diff"]
  | 'l' => ["ls", "less", "ln"]
  | 'n' => ["npm", "node", "nano"]
  | 'p' => ["ps", "pwd", "pip", "python"]
  | 'r' => ["rm", "rsync"]
  | 's' => ["ssh", "sudo", "scp"]
  | 't' => ["tar", "touch", "tail"]
  | 'v' => ["vim", "vi"]
  | _ => []

/-- Rust `AutocompleteEngine::get_fallback_suggestions`: lower-case the
input; every row whose trigger is a prefix of the lowered input or of
which the lowered input is a prefix contributes its completions that
start with the lowered input (all of them when the input is empty), in
table order; if nothing matched and the input is non-empty, dispatch
on the lowered first character, filtered to entries starting with the
lowered input; truncate to five.  The `unwrap` on the first character
in the source is guarded by the non-emptiness test, which the `match`
below reflects. -/
def get_fallback_suggestions (input : String) : List String :=
  let inputLower := strLower input
  let fromRows := fallbackRows.foldl (fun acc row =>
    if strStarts inputLower row.1 || strStarts row.1 inputLower then
      acc ++ row.2.filter (fun c => strStarts c inputLower || inputLower == "")
    else acc) []
  let sugg :=
    if fromRows.isEmpty && !(input == "") then
      match input.data with
      | [] => []
      | c :: _ => (charDispatch c.toLower).filter (fun s => strStarts s inputLower)
    else fromRows
  sugg.take 5

/-! ## The engine -/

/-- The mutable state of `AutocompleteEngine`: the suggestion cache,
the rate limiter, and the pending-request token (the unused
`last_request_time` field is omitted: no engine operation reads it). -/
structure EngineState where
  cache : Cache
  limiter : RateLimiter
  pending : Option String
  deriving DecidableEq

deriving instance DecidableEq for Except

/-- Outcome of an engine call: the returned result or error, the
engine state afterwards, and the list of inputs for which the remote
stage (`fetch_suggestions`) was invoked. -/
structure StepOut where
  res : Except ClientError SuggestionResult
  st : EngineState
  calls : List String
  deriving DecidableEq

/-- The shared tail of both public operations, from the rate-limiter
check onward: on denial return fallback suggestions or the
rate-limited error; on admission fetch remotely, and on success cache
the parsed suggestions, on failure return fallback suggestions or
propagate the error. -/
def rateAndFetch (cfg : AiConfig) (remote : Remote) (st : EngineState)
    (input : String) (now : Nat) : StepOut :=
  let ar := st.limiter.allow_request now
  let st1 : EngineState := { st with limiter := ar.2 }
  if ar.1 then
    match fetch_suggestions remote input with
    | .ok sugg =>
      ⟨.ok ⟨sugg, false, false⟩,
       { st1 with cache := add_to_cache cfg st1.cache input sugg now }, [input]⟩
    | .error e =>
      if cfg.use_fallback then
        ⟨.ok ⟨get_fallback_suggestions input, false, true⟩, st1, [input]⟩
      else ⟨.error e, st1, [input]⟩
  else
    if cfg.use_fallback then
      ⟨.ok ⟨get_fallback_suggestions input, false, true⟩, st1, []⟩
    else ⟨.error .rateLimited, st1, []⟩

/-- Rust `AutocompleteEngine::get_suggestions_immediate` with the instant
explicit: disabled engine or blank input short-circuits to an empty
success; then a cache hit returns the cached list; otherwise the
rate-limit/fetch tail runs. -/
def get_suggestions_immediate (cfg : AiConfig) (remote : Remote)
    (st : EngineState) (input : String) (now : Nat) : StepOut :=
  if !cfg.enabled || strTrim input == "" then
    ⟨.ok ⟨[], false, false⟩, st, []⟩
  else
    match get_from_cache st.cache input now with
    | some cached => ⟨.ok ⟨cached, true, false⟩, st, []⟩
    | none => rateAndFetch cfg remote st input now

/-- What `get_suggestions` has done when it reaches its debounce
sleep: either it already returned, or it suspended after writing the
pending token. -/
inductive Phase1Out where
  | done (r : SuggestionResult) (st : EngineState)
  | suspended (st : EngineState)
  deriving DecidableEq

/-- The part of `AutocompleteEngine::get_suggestions` before the
debounce sleep: the disabled/blank short-circuit, the cache lookup,
and the pending-token overwrite. -/
def get_suggestions_phase1 (cfg : AiConfig) (st : EngineState)
    (input : String) (now : Nat) : Phase1Out :=
  if !cfg.enabled || strTrim input == "" then
    .done ⟨[], false, false⟩ st
  else
    match get_from_cache st.cache input now with
    | some cached => .done ⟨cached, true, false⟩ st
    | none => .suspended { st with pending := some input }

/-- The continuation of `AutocompleteEngine::get_suggestions` after
the debounce sleep: if the pending token no longer matches this call's
input the call was superseded and returns an empty success touching
nothing; otherwise the rate-limit/fetch tail runs. -/
def get_suggestions_phase2 (cfg : AiConfig) (remote : Remote)
    (st : EngineState) (input : String) (now : Nat) : StepOut :=
  if st.pending ≠ some input then
    ⟨.ok ⟨[], false, false⟩, st, []⟩
  else rateAndFetch cfg remote st input now

/-- Rust `AutocompleteEngine::get_suggestions` run without interleaving:
phase 1 at instant `t0`, and when it suspends, phase 2 at instant
`t1` on the state phase 1 left behind. -/
def get_suggestions (cfg : AiConfig) (remote : Remote) (st : EngineState)
    (input : String) (t0 t1 : Nat) : StepOut :=
  match get_suggestions_phase1 cfg st input t0 with
  | .done r s => ⟨.ok r, s, []⟩
  | .suspended s => get_suggestions_phase2 cfg remote s input t1

/-- Rust `AiConfig::default()` restricted to the fields the engine core
reads: enabled, 300 ms debounce, 50 requests per minute, 300 s TTL,
1000 cache entries, fallback on. -/
def cfgDefault : AiConfig := ⟨true, 300, 50, 300, 1000, true⟩

/-- The engine state `AutocompleteEngine::new` sets up: empty cache,
fresh rate limiter sized from the configuration, no pending token. -/
def newEngineState (cfg : AiConfig) : EngineState :=
  ⟨[], RateLimiter.new cfg.max_requests_per_minute, none⟩

/-- A remote client stub that always responds with a fixed text. -/
def remoteStub : Remote := some (fun _ => .ok "- echo\n")

/-!
## Proofs

Helper lemmas first, then one theorem per specification claim.
-/

/-- If every recorded timestamp lies in a half-open window-length
interval that also contains the probe instant, the pruning filter of
`allow_request` keeps everything. -/
lemma filter_within_window (w lo : Nat) (cur : List Nat) (t : Nat)
    (hcur : ∀ x ∈ cur, lo ≤ x ∧ x < lo + w) (ht : t < lo + w) :
    cur.filter (fun a => decide (t - a < w)) = cur := by
  apply List.filter_eq_self.mpr
  intro a ha
  have := hcur a ha
  simp only [decide_eq_true_eq]
  omega

/-- Running `allow_request` over a batch of instants that all fit,
together with the already-recorded timestamps, in one window-length
interval and whose total count stays within the limit: every call is
admitted and every instant is recorded in order. -/
lemma allowSeq_within (maxR w lo : Nat) :
    ∀ (ts cur : List Nat),
      (∀ x ∈ cur ++ ts, lo ≤ x ∧ x < lo + w) →
      cur.length + ts.length ≤ maxR →
      allowSeq ⟨cur, maxR, w⟩ ts = (List.replicate ts.length true, ⟨cur ++ ts, maxR, w⟩) := by
  intro ts
  induction ts with
  | nil =>
    intro cur hspan hlen
    simp [allowSeq]
  | cons t ts ih =>
    intro cur hspan hlen
    have hcur : ∀ x ∈ cur, lo ≤ x ∧ x < lo + w := fun x hx => hspan x (by simp [hx])
    have ht : t < lo + w := (hspan t (by simp)).2
    have hlt : cur.length < maxR := by
      simp only [List.length_cons] at hlen
      omega
    have hstep : RateLimiter.allow_request ⟨cur, maxR, w⟩ t = (true, ⟨cur ++ [t], maxR, w⟩) := by
      simp only [RateLimiter.allow_request]
      rw [filter_within_window w lo cur t hcur ht, if_pos hlt]
    have h2 : allowSeq ⟨cur ++ [t], maxR, w⟩ ts =
        (List.replicate ts.length true, ⟨(cur ++ [t]) ++ ts, maxR, w⟩) := by
      apply ih
      · intro x hx
        apply hspan
        simp only [List.mem_append, List.mem_cons, List.mem_singleton] at hx ⊢
        tauto
      · have hone : (cur ++ [t]).length = cur.length + 1 := by simp
        rw [hone]
        simp only [List.length_cons] at hlen
        omega
    simp only [allowSeq, hstep, h2, List.length_cons, List.replicate_succ, List.append_assoc,
      List.singleton_append]

/-- C2: for every rate limiter with limit N, the first N calls inside
one 60-second window are admitted, the (N+1)st call inside the same
window is denied and records no new timestamp, and once the window
has fully elapsed past every recorded timestamp a further call is
admitted again (the recovery clause presupposes at least one recorded
timestamp, i.e. N > 0). -/
theorem rate_limiter_window_behavior (N : Nat) (ts : List Nat) (tN tr lo : Nat)
    (hlen : ts.length = N) (hN : 0 < N)
    (hspan : ∀ x ∈ ts ++ [tN], lo ≤ x ∧ x < lo + 60000)
    (hrec : ∀ a ∈ ts, a + 60000 ≤ tr) :
    (allowSeq (RateLimiter.new N) ts).1 = List.replicate N true ∧
    ((allowSeq (RateLimiter.new N) ts).2.allow_request tN).1 = false ∧
    ((allowSeq (RateLimiter.new N) ts).2.allow_request tN).2.timestamps = ts ∧
    ((((allowSeq (RateLimiter.new N) ts).2.allow_request tN).2).allow_request tr).1 = true := by
  have hts : ∀ x ∈ ts, lo ≤ x ∧ x < lo + 60000 := fun x hx => hspan x (by simp [hx])
  have hrun := allowSeq_within N 60000 lo ts [] (by simpa using hts) (by simp [hlen])
  simp only [List.nil_append] at hrun
  have hnew : RateLimiter.new N = ⟨[], N, 60000⟩ := rfl
  rw [hnew, hrun]
  have hdeny : RateLimiter.allow_request ⟨ts, N, 60000⟩ tN = (false, ⟨ts, N, 60000⟩) := by
    simp only [RateLimiter.allow_request]
    rw [filter_within_window 60000 lo ts tN hts (hspan tN (by simp)).2, if_neg (by omega)]
  have hkept2 : ts.filter (fun a => decide (tr - a < 60000)) = [] := by
    refine List.filter_eq_nil_iff.mpr ?_
    intro a ha
    have := hrec a ha
    simp only [decide_eq_true_eq]
    omega
  have hrecover : (RateLimiter.allow_request ⟨ts, N, 60000⟩ tr).1 = true := by
    simp only [RateLimiter.allow_request]
    rw [hkept2]
    simp [hN]
  exact ⟨by simp [hlen], by rw [show ((List.replicate ts.length true, (⟨ts, N, 60000⟩ : RateLimiter)).2) = (⟨ts, N, 60000⟩ : RateLimiter) from rfl, hdeny], by rw [show ((List.replicate ts.length true, (⟨ts, N, 60000⟩ : RateLimiter)).2) = (⟨ts, N, 60000⟩ : RateLimiter) from rfl, hdeny], by rw [show ((List.replicate ts.length true, (⟨ts, N, 60000⟩ : RateLimiter)).2) = (⟨ts, N, 60000⟩ : RateLimiter) from rfl, hdeny]; exact hrecover⟩

/-- Witness for C2 at N = 3, calls at 0, 1, 2, a denied fourth call at
instant 3, and a recovering call at 70000 ms. -/
theorem rate_limiter_window_behavior_witness :
    (allowSeq (RateLimiter.new 3) [0, 1, 2]).1 = List.replicate 3 true ∧
    ((allowSeq (RateLimiter.new 3) [0, 1, 2]).2.allow_request 3).1 = false ∧
    ((allowSeq (RateLimiter.new 3) [0, 1, 2]).2.allow_request 3).2.timestamps = [0, 1, 2] ∧
    ((((allowSeq (RateLimiter.new 3) [0, 1, 2]).2.allow_request 3).2).allow_request 70000).1 = true :=
  rate_limiter_window_behavior 3 [0, 1, 2] 3 70000 0 (by decide) (by decide)
    (by decide) (by decide)

/-- Inserting under a key makes that key's entry findable, whatever
was stored before. -/
lemma insertEntry_find?_self (c : Cache) (k : String) (v : CachedSuggestion) :
    (insertEntry c k v).find? (fun e => e.1 == k) = some (k, v) := by
  unfold insertEntry
  induction c with
  | nil => simp [List.find?]
  | cons e l ih =>
    by_cases h : e.1 = k
    · simp only [List.filter_cons, h, beq_self_eq_true, Bool.not_true, Bool.false_eq_true,
        if_false]
      exact ih
    · have hb : (e.1 == k) = false := by simp [h]
      simp only [List.filter_cons, hb, Bool.not_false, if_true, List.cons_append,
        List.find?_cons, hb]
      exact ih

/-- An insertion grows the entry count by at most one. -/
lemma insertEntry_length_le (c : Cache) (k : String) (v : CachedSuggestion) :
    (insertEntry c k v).length ≤ c.length + 1 := by
  have := List.length_filter_le (fun e : String × CachedSuggestion => !(e.1 == k)) c
  simp only [insertEntry, List.length_append, List.length_cons, List.length_nil]
  omega

/-- Removing the entries whose key occurs among the first `q` keys
removes at least `q` entries. -/
lemma length_filter_doomed_le (l : Cache) (q : Nat) :
    (l.filter (fun e => decide (¬ e.1 ∈ (l.take q).map Prod.fst))).length ≤ l.length - q := by
  set d : List String := (l.take q).map Prod.fst with hd
  have h1 : (l.take q).filter (fun e => decide (¬ e.1 ∈ d)) = [] := by
    refine List.filter_eq_nil_iff.mpr ?_
    intro a ha
    have hmem : a.1 ∈ d := by rw [hd]; exact List.mem_map_of_mem Prod.fst ha
    simp [hmem]
  calc (l.filter (fun e => decide (¬ e.1 ∈ d))).length
      = ((l.take q ++ l.drop q).filter (fun e => decide (¬ e.1 ∈ d))).length := by
        rw [List.take_append_drop]
    _ = ((l.take q).filter (fun e => decide (¬ e.1 ∈ d)) ++
          (l.drop q).filter (fun e => decide (¬ e.1 ∈ d))).length := by
        rw [List.filter_append]
    _ ≤ ((l.drop q).filter (fun e => decide (¬ e.1 ∈ d))).length := by
        rw [h1]; simp
    _ ≤ (l.drop q).length := List.length_filter_le _ _
    _ = l.length - q := List.length_drop q l

/-- The quarter eviction drops at least a quarter of the entries. -/
lemma evictQuarter_length (c : Cache) :
    (evictQuarter c).length ≤ c.length - c.length / 4 :=
  length_filter_doomed_le c (c.length / 4)

/-- Looking the inserted key up after an insertion yields exactly the
inserted entry, gated by its expiry. -/
lemma get_from_cache_insertEntry (c : Cache) (k : String) (v : CachedSuggestion) (tq : Nat) :
    get_from_cache (insertEntry c k v) k tq =
      if tq < v.expires_at then some v.suggestions else none := by
  unfold get_from_cache
  rw [insertEntry_find?_self]

/-- Reading `get_from_cache` after `add_to_cache` under the same key: the
freshly inserted suggestions, visible strictly before `now + ttl`. -/
lemma get_from_cache_add (cfg : AiConfig) (cache : Cache) (k : String)
    (v : List String) (t tq : Nat) :
    get_from_cache (add_to_cache cfg cache k v t) k tq =
      if tq < t + cfg.cache_ttl_secs * 1000 then some v else none := by
  simp only [add_to_cache]
  rw [get_from_cache_insertEntry]

/-- C3: after `add_to_cache(k, v)` at instant `t`, `get_from_cache(k)`
returns `v` unchanged at every instant strictly before `t + TTL` and
nothing at every instant at or after `t + TTL`. -/
theorem cache_round_trip_and_expiry (cfg : AiConfig) (cache : Cache) (k : String)
    (v : List String) (t tq : Nat) :
    (tq < t + cfg.cache_ttl_secs * 1000 →
      get_from_cache (add_to_cache cfg cache k v t) k tq = some v) ∧
    (t + cfg.cache_ttl_secs * 1000 ≤ tq →
      get_from_cache (add_to_cache cfg cache k v t) k tq = none) := by
  constructor <;> intro h
  · rw [get_from_cache_add, if_pos h]
  · rw [get_from_cache_add, if_neg (by omega)]

/-- Witness for C3 with the default 300-second TTL: a lookup 5 ms
after the insert hits, a lookup at exactly 300000 ms misses. -/
theorem cache_round_trip_and_expiry_witness :
    get_from_cache (add_to_cache cfgDefault [] "ls" ["ls -la"] 0) "ls" 5 = some ["ls -la"] ∧
    get_from_cache (add_to_cache cfgDefault [] "ls" ["ls -la"] 0) "ls" 300000 = none :=
  ⟨(cache_round_trip_and_expiry cfgDefault [] "ls" ["ls -la"] 0 5).1 (by decide),
   (cache_round_trip_and_expiry cfgDefault [] "ls" ["ls -la"] 0 300000).2 (by decide)⟩

/-- C4 counterexample: with capacity 2 and two live entries, inserting
a third key leaves three entries — `len/4 = 0` entries are evicted, so
the insert exceeds the capacity. -/
theorem cache_capacity_counterexample :
    ¬ ((add_to_cache ⟨true, 300, 50, 300, 2, true⟩
        [("k1", ⟨[], 1000⟩), ("k2", ⟨[], 1000⟩)] "k3" [] 0).length ≤ 2) := by
  decide

/-- C4 as amended: for a configured capacity of at least 4 and a cache
currently within capacity, a single `add_to_cache` leaves the entry
count at most the capacity. -/
theorem cache_capacity_after_insert (cfg : AiConfig) (cache : Cache) (input : String)
    (sugg : List String) (now : Nat)
    (hcap : 4 ≤ cfg.max_cache_entries)
    (hlen : cache.length ≤ cfg.max_cache_entries) :
    (add_to_cache cfg cache input sugg now).length ≤ cfg.max_cache_entries := by
  simp only [add_to_cache]
  by_cases h1 : cfg.max_cache_entries ≤ cache.length
  · by_cases h2 : cfg.max_cache_entries ≤ (sweepExpired cache now).length
    · rw [if_pos h1, if_pos h2]
      have hs : (sweepExpired cache now).length ≤ cache.length :=
        List.length_filter_le _ _
      have he := evictQuarter_length (sweepExpired cache now)
      have hi := insertEntry_length_le (evictQuarter (sweepExpired cache now)) input
        ⟨sugg, now + cfg.cache_ttl_secs * 1000⟩
      omega
    · rw [if_pos h1, if_neg h2]
      have hi := insertEntry_length_le (sweepExpired cache now) input
        ⟨sugg, now + cfg.cache_ttl_secs * 1000⟩
      omega
  · rw [if_neg h1]
    have hi := insertEntry_length_le cache input ⟨sugg, now + cfg.cache_ttl_secs * 1000⟩
    omega

/-- Witness for the amended C4: capacity 4, four live entries, a fifth
key inserted; the count stays at 4. -/
theorem cache_capacity_after_insert_witness :
    (add_to_cache ⟨true, 300, 50, 300, 4, true⟩
      [("k1", ⟨[], 9⟩), ("k2", ⟨[], 9⟩), ("k3", ⟨[], 9⟩), ("k4", ⟨[], 9⟩)]
      "k5" [] 0).length ≤ 4 :=
  cache_capacity_after_insert ⟨true, 300, 50, 300, 4, true⟩
    [("k1", ⟨[], 9⟩), ("k2", ⟨[], 9⟩), ("k3", ⟨[], 9⟩), ("k4", ⟨[], 9⟩)]
    "k5" [] 0 (by decide) (by decide)

/-- C10: the fallback heuristic is a total function whose result never
exceeds five entries, for every input string (the first-character
`unwrap` of the source is reflected by a `match` that is only taken
under the non-emptiness guard). -/
theorem fallback_total_and_bounded (input : String) :
    (get_fallback_suggestions input).length ≤ 5 := by
  simp only [get_fallback_suggestions, List.length_take]
  exact Nat.min_le_left _ _

/-- An enabled engine with non-blank input fails the early guard. -/
lemma guard_false {cfg : AiConfig} {input : String}
    (hen : cfg.enabled = true) (hne : strTrim input ≠ "") :
    (!cfg.enabled || strTrim input == "") = false := by
  simp [hen, hne]

/-- A denied rate check with fallback enabled yields fallback
suggestions, touching only the limiter. -/
lemma rateAndFetch_denied_fb {cfg : AiConfig} {remote : Remote} {st : EngineState}
    {input : String} {now : Nat}
    (hfb : cfg.use_fallback = true) (hdeny : (st.limiter.allow_request now).1 = false) :
    rateAndFetch cfg remote st input now =
      ⟨.ok ⟨get_fallback_suggestions input, false, true⟩,
       ⟨st.cache, (st.limiter.allow_request now).2, st.pending⟩, []⟩ := by
  simp [rateAndFetch, hdeny, hfb]

/-- A denied rate check with fallback disabled yields the rate-limited
error. -/
lemma rateAndFetch_denied_nofb {cfg : AiConfig} {remote : Remote} {st : EngineState}
    {input : String} {now : Nat}
    (hfb : cfg.use_fallback = false) (hdeny : (st.limiter.allow_request now).1 = false) :
    rateAndFetch cfg remote st input now =
      ⟨.error .rateLimited, ⟨st.cache, (st.limiter.allow_request now).2, st.pending⟩, []⟩ := by
  simp [rateAndFetch, hdeny, hfb]

/-- An admitted call whose fetch succeeds returns the fetched
suggestions fresh and writes them to the cache. -/
lemma rateAndFetch_ok {cfg : AiConfig} {remote : Remote} {st : EngineState}
    {input : String} {now : Nat} {sugg : List String}
    (hallow : (st.limiter.allow_request now).1 = true)
    (hok : fetch_suggestions remote input = .ok sugg) :
    rateAndFetch cfg remote st input now =
      ⟨.ok ⟨sugg, false, false⟩,
       ⟨add_to_cache cfg st.cache input sugg now, (st.limiter.allow_request now).2, st.pending⟩,
       [input]⟩ := by
  simp [rateAndFetch, hallow, hok]

/-- An admitted call whose fetch fails yields fallback suggestions
when fallback is enabled. -/
lemma rateAndFetch_fail_fb {cfg : AiConfig} {remote : Remote} {st : EngineState}
    {input : String} {now : Nat} {e : ClientError}
    (hfb : cfg.use_fallback = true)
    (hallow : (st.limiter.allow_request now).1 = true)
    (hfail : fetch_suggestions remote input = .error e) :
    rateAndFetch cfg remote st input now =
      ⟨.ok ⟨get_fallback_suggestions input, false, true⟩,
       ⟨st.cache, (st.limiter.allow_request now).2, st.pending⟩, [input]⟩ := by
  simp [rateAndFetch, hallow, hfail, hfb]

/-- An admitted call whose fetch fails propagates the error unchanged
when fallback is disabled. -/
lemma rateAndFetch_fail_nofb {cfg : AiConfig} {remote : Remote} {st : EngineState}
    {input : String} {now : Nat} {e : ClientError}
    (hfb : cfg.use_fallback = false)
    (hallow : (st.limiter.allow_request now).1 = true)
    (hfail : fetch_suggestions remote input = .error e) :
    rateAndFetch cfg remote st input now =
      ⟨.error e, ⟨st.cache, (st.limiter.allow_request now).2, st.pending⟩, [input]⟩ := by
  simp [rateAndFetch, hallow, hfail, hfb]

/-- With fallback enabled, the rate-and-fetch stage never errors. -/
lemma rateAndFetch_isOk {cfg : AiConfig} {remote : Remote} {st : EngineState}
    {input : String} {now : Nat} (hfb : cfg.use_fallback = true) :
    (rateAndFetch cfg remote st input now).res.isOk = true := by
  cases hallow : (st.limiter.allow_request now).1 with
  | true =>
    cases hok : fetch_suggestions remote input with
    | ok s => rw [rateAndFetch_ok hallow hok]; rfl
    | error e => rw [rateAndFetch_fail_fb hfb hallow hok]; rfl
  | false => rw [rateAndFetch_denied_fb hfb hallow]; rfl

/-- The early guard short-circuits `get_suggestions_immediate`. -/
lemma immediate_early {cfg : AiConfig} {remote : Remote} {st : EngineState}
    {input : String} {now : Nat}
    (h : (!cfg.enabled || strTrim input == "") = true) :
    get_suggestions_immediate cfg remote st input now = ⟨.ok ⟨[], false, false⟩, st, []⟩ := by
  simp [get_suggestions_immediate, h]

/-- A live cache hit short-circuits `get_suggestions_immediate`. -/
lemma immediate_cache_hit {cfg : AiConfig} {remote : Remote} {st : EngineState}
    {input : String} {now : Nat} {cached : List String}
    (hb : (!cfg.enabled || strTrim input == "") = false)
    (hhit : get_from_cache st.cache input now = some cached) :
    get_suggestions_immediate cfg remote st input now =
      ⟨.ok ⟨cached, true, false⟩, st, []⟩ := by
  simp [get_suggestions_immediate, hb, hhit]

/-- On a cache miss, `get_suggestions_immediate` is the rate-and-fetch
stage. -/
lemma immediate_miss {cfg : AiConfig} {remote : Remote} {st : EngineState}
    {input : String} {now : Nat}
    (hb : (!cfg.enabled || strTrim input == "") = false)
    (hmiss : get_from_cache st.cache input now = none) :
    get_suggestions_immediate cfg remote st input now =
      rateAndFetch cfg remote st input now := by
  simp [get_suggestions_immediate, hb, hmiss]

/-- The early guard short-circuits phase 1 of `get_suggestions`. -/
lemma phase1_early {cfg : AiConfig} {st : EngineState} {input : String} {now : Nat}
    (h : (!cfg.enabled || strTrim input == "") = true) :
    get_suggestions_phase1 cfg st input now = .done ⟨[], false, false⟩ st := by
  simp [get_suggestions_phase1, h]

/-- A live cache hit short-circuits phase 1 of `get_suggestions`. -/
lemma phase1_cache_hit {cfg : AiConfig} {st : EngineState} {input : String} {now : Nat}
    {cached : List String}
    (hb : (!cfg.enabled || strTrim input == "") = false)
    (hhit : get_from_cache st.cache input now = some cached) :
    get_suggestions_phase1 cfg st input now = .done ⟨cached, true, false⟩ st := by
  simp [get_suggestions_phase1, hb, hhit]

/-- On a cache miss, phase 1 writes the pending token and suspends. -/
lemma phase1_miss {cfg : AiConfig} {st : EngineState} {input : String} {now : Nat}
    (hb : (!cfg.enabled || strTrim input == "") = false)
    (hmiss : get_from_cache st.cache input now = none) :
    get_suggestions_phase1 cfg st input now =
      .suspended ⟨st.cache, st.limiter, some input⟩ := by
  simp [get_suggestions_phase1, hb, hmiss]

/-- When the pending token still matches, phase 2 is the
rate-and-fetch stage. -/
lemma phase2_current {cfg : AiConfig} {remote : Remote} {st : EngineState}
    {input : String} {now : Nat} (hcur : st.pending = some input) :
    get_suggestions_phase2 cfg remote st input now =
      rateAndFetch cfg remote st input now := by
  simp [get_suggestions_phase2, hcur]

/-- A debounced call on a cache miss reduces to the rate-and-fetch
stage on the state with its own token, when undisturbed. -/
lemma composed_miss {cfg : AiConfig} {remote : Remote} {st : EngineState}
    {input : String} {t0 t1 : Nat}
    (hb : (!cfg.enabled || strTrim input == "") = false)
    (hmiss : get_from_cache st.cache input t0 = none) :
    get_suggestions cfg remote st input t0 t1 =
      rateAndFetch cfg remote ⟨st.cache, st.limiter, some input⟩ input t1 := by
  rw [get_suggestions, phase1_miss hb hmiss]
  exact phase2_current rfl

/-- C1: a debounced call that wakes up to find the pending token
changed returns an empty, non-cached, non-fallback success, leaves the
whole engine state (including the rate limiter) untouched and performs
no remote call; in the two-call scenario, registering "a" then "ab"
leaves the token at "ab", the "a" call's resumption is a no-op and
only the "ab" call's resumption reaches the remote stage. -/
theorem debounce_supersession :
    (∀ (cfg : AiConfig) (remote : Remote) (st : EngineState) (input : String) (now : Nat),
        st.pending ≠ some input →
        get_suggestions_phase2 cfg remote st input now = ⟨.ok ⟨[], false, false⟩, st, []⟩) ∧
    get_suggestions_phase1 cfgDefault (newEngineState cfgDefault) "a" 0 =
      .suspended ⟨[], RateLimiter.new 50, some "a"⟩ ∧
    get_suggestions_phase1 cfgDefault ⟨[], RateLimiter.new 50, some "a"⟩ "ab" 10 =
      .suspended ⟨[], RateLimiter.new 50, some "ab"⟩ ∧
    get_suggestions_phase2 cfgDefault remoteStub ⟨[], RateLimiter.new 50, some "ab"⟩ "a" 300 =
      ⟨.ok ⟨[], false, false⟩, ⟨[], RateLimiter.new 50, some "ab"⟩, []⟩ ∧
    (get_suggestions_phase2 cfgDefault remoteStub
        ⟨[], RateLimiter.new 50, some "ab"⟩ "ab" 310).calls = ["ab"] := by
  refine ⟨?_, by decide, by decide, by decide, by decide⟩
  intro cfg remote st input now h
  rw [get_suggestions_phase2, if_pos h]

/-- Witness for C1: the superseded "a" call resuming against token
"ab" is a no-op. -/
theorem debounce_supersession_witness :
    get_suggestions_phase2 cfgDefault remoteStub ⟨[], RateLimiter.new 50, some "ab"⟩ "a" 300 =
      ⟨.ok ⟨[], false, false⟩, ⟨[], RateLimiter.new 50, some "ab"⟩, []⟩ :=
  debounce_supersession.1 cfgDefault remoteStub ⟨[], RateLimiter.new 50, some "ab"⟩ "a" 300
    (by decide)

/-- C5 counterexample: with the engine enabled, fallback on, an empty
cache, the limiter admitting and the remote failing, the result for
"cargo b" is not the claimed two-element list — the "cargo " and
"cargo b" table rows both contribute "cargo build", undeduplicated. -/
theorem fallback_dedup_counterexample :
    (get_suggestions_immediate cfgDefault (some (fun _ => .error .timeout))
        (newEngineState cfgDefault) "cargo b" 0).res ≠
      .ok ⟨["cargo build", "cargo build --release"], false, true⟩ := by
  decide

/-- C5 as amended: under the scenario's premises the call returns
exactly the fallback list ["cargo build", "cargo build",
"cargo build --release"], not from cache, tagged as fallback. -/
theorem remote_failure_fallback_cargo_b (cfg : AiConfig) (remote : Remote)
    (st : EngineState) (now : Nat) (e : ClientError)
    (hen : cfg.enabled = true) (hfb : cfg.use_fallback = true)
    (hmiss : get_from_cache st.cache "cargo b" now = none)
    (hallow : (st.limiter.allow_request now).1 = true)
    (hfail : fetch_suggestions remote "cargo b" = .error e) :
    (get_suggestions_immediate cfg remote st "cargo b" now).res =
      .ok ⟨["cargo build", "cargo build", "cargo build --release"], false, true⟩ := by
  have hne : strTrim "cargo b" ≠ "" := by decide
  rw [immediate_miss (guard_false hen hne) hmiss, rateAndFetch_fail_fb hfb hallow hfail]
  have hf : get_fallback_suggestions "cargo b" =
      ["cargo build", "cargo build", "cargo build --release"] := by decide
  simp [hf]

/-- Witness for the amended C5 at the default configuration. -/
theorem remote_failure_fallback_cargo_b_witness :
    (get_suggestions_immediate cfgDefault (some (fun _ => .error .timeout))
        (newEngineState cfgDefault) "cargo b" 0).res =
      .ok ⟨["cargo build", "cargo build", "cargo build --release"], false, true⟩ :=
  remote_failure_fallback_cargo_b cfgDefault (some (fun _ => .error .timeout))
    (newEngineState cfgDefault) 0 .timeout rfl rfl rfl (by decide) rfl

/-- C6: with fallback enabled neither public operation ever returns an
error — a denied rate check or a failed remote call yields the
fallback suggestions tagged `is_fallback = true`; with fallback
disabled the rate-limited error, respectively the remote failure, is
returned to the caller unchanged. -/
theorem fallback_shields_errors :
    (∀ (cfg : AiConfig) (remote : Remote) (st : EngineState) (input : String) (now : Nat),
        cfg.use_fallback = true →
        (get_suggestions_immediate cfg remote st input now).res.isOk = true) ∧
    (∀ (cfg : AiConfig) (remote : Remote) (st : EngineState) (input : String) (t0 t1 : Nat),
        cfg.use_fallback = true →
        (get_suggestions cfg remote st input t0 t1).res.isOk = true) ∧
    (∀ (cfg : AiConfig) (remote : Remote) (st : EngineState) (input : String) (now : Nat),
        cfg.use_fallback = true → cfg.enabled = true → strTrim input ≠ "" →
        get_from_cache st.cache input now = none →
        (st.limiter.allow_request now).1 = false →
        (get_suggestions_immediate cfg remote st input now).res =
          .ok ⟨get_fallback_suggestions input, false, true⟩) ∧
    (∀ (cfg : AiConfig) (remote : Remote) (st : EngineState) (input : String) (now : Nat)
        (e : ClientError),
        cfg.use_fallback = true → cfg.enabled = true → strTrim input ≠ "" →
        get_from_cache st.cache input now = none →
        (st.limiter.allow_request now).1 = true →
        fetch_suggestions remote input = .error e →
        (get_suggestions_immediate cfg remote st input now).res =
          .ok ⟨get_fallback_suggestions input, false, true⟩) ∧
    (∀ (cfg : AiConfig) (remote : Remote) (st : EngineState) (input : String) (now : Nat),
        cfg.use_fallback = false → cfg.enabled = true → strTrim input ≠ "" →
        get_from_cache st.cache input now = none →
        (st.limiter.allow_request now).1 = false →
        (get_suggestions_immediate cfg remote st input now).res = .error .rateLimited) ∧
    (∀ (cfg : AiConfig) (remote : Remote) (st : EngineState) (input : String) (now : Nat)
        (e : ClientError),
        cfg.use_fallback = false → cfg.enabled = true → strTrim input ≠ "" →
        get_from_cache st.cache input now = none →
        (st.limiter.allow_request now).1 = true →
        fetch_suggestions remote input = .error e →
        (get_suggestions_immediate cfg remote st input now).res = .error e) ∧
    (∀ (cfg : AiConfig) (remote : Remote) (st : EngineState) (input : String) (t0 t1 : Nat),
        cfg.use_fallback = false → cfg.enabled = true → strTrim input ≠ "" →
        get_from_cache st.cache input t0 = none →
        (st.limiter.allow_request t1).1 = false →
        (get_suggestions cfg remote st input t0 t1).res = .error .rateLimited) ∧
    (∀ (cfg : AiConfig) (remote : Remote) (st : EngineState) (input : String) (t0 t1 : Nat)
        (e : ClientError),
        cfg.use_fallback = false → cfg.enabled = true → strTrim input ≠ "" →
        get_from_cache st.cache input t0 = none →
        (st.limiter.allow_request t1).1 = true →
        fetch_suggestions remote input = .error e →
        (get_suggestions cfg remote st input t0 t1).res = .error e) := by
  refine ⟨?_, ?_, ?_, ?_, ?_, ?_, ?_, ?_⟩
  · intro cfg remote st input now hfb
    cases hg : (!cfg.enabled || strTrim input == "") with
    | true => rw [immediate_early hg]; rfl
    | false =>
      cases hc : get_from_cache st.cache input now with
      | some cached => rw [immediate_cache_hit hg hc]; rfl
      | none => rw [immediate_miss hg hc]; exact rateAndFetch_isOk hfb
  · intro cfg remote st input t0 t1 hfb
    cases hg : (!cfg.enabled || strTrim input == "") with
    | true => rw [get_suggestions, phase1_early hg]; rfl
    | false =>
      cases hc : get_from_cache st.cache input t0 with
      | some cached => rw [get_suggestions, phase1_cache_hit hg hc]; rfl
      | none => rw [composed_miss hg hc]; exact rateAndFetch_isOk hfb
  · intro cfg remote st input now hfb hen hne hmiss hdeny
    rw [immediate_miss (guard_false hen hne) hmiss, rateAndFetch_denied_fb hfb hdeny]
  · intro cfg remote st input now e hfb hen hne hmiss hallow hfail
    rw [immediate_miss (guard_false hen hne) hmiss, rateAndFetch_fail_fb hfb hallow hfail]
  · intro cfg remote st input now hfb hen hne hmiss hdeny
    rw [immediate_miss (guard_false hen hne) hmiss, rateAndFetch_denied_nofb hfb hdeny]
  · intro cfg remote st input now e hfb hen hne hmiss hallow hfail
    rw [immediate_miss (guard_false hen hne) hmiss, rateAndFetch_fail_nofb hfb hallow hfail]
  · intro cfg remote st input t0 t1 hfb hen hne hmiss hdeny
    rw [composed_miss (guard_false hen hne) hmiss,
      @rateAndFetch_denied_nofb cfg remote ⟨st.cache, st.limiter, some input⟩ input t1 hfb hdeny]
  · intro cfg remote st input t0 t1 e hfb hen hne hmiss hallow hfail
    rw [composed_miss (guard_false hen hne) hmiss,
      @rateAndFetch_fail_nofb cfg remote ⟨st.cache, st.limiter, some input⟩ input t1 e hfb
        hallow hfail]

/-- Witness for C6: with fallback on a failing remote still yields a
success; with fallback off a zero-budget limiter yields the
rate-limited error and a failing remote propagates its timeout. -/
theorem fallback_shields_errors_witness :
    (get_suggestions_immediate cfgDefault (some (fun _ => .error .timeout))
        (newEngineState cfgDefault) "git" 0).res.isOk = true ∧
    (get_suggestions_immediate ⟨true, 300, 0, 300, 1000, false⟩ remoteStub
        (newEngineState ⟨true, 300, 0, 300, 1000, false⟩) "git" 0).res = .error .rateLimited ∧
    (get_suggestions_immediate ⟨true, 300, 50, 300, 1000, false⟩
        (some (fun _ => .error .timeout))
        (newEngineState ⟨true, 300, 50, 300, 1000, false⟩) "git" 0).res = .error .timeout :=
  ⟨fallback_shields_errors.1 cfgDefault (some (fun _ => .error .timeout))
      (newEngineState cfgDefault) "git" 0 rfl,
   fallback_shields_errors.2.2.2.2.1 ⟨true, 300, 0, 300, 1000, false⟩ remoteStub
      (newEngineState ⟨true, 300, 0, 300, 1000, false⟩) "git" 0 rfl rfl (by decide) rfl
      (by decide),
   fallback_shields_errors.2.2.2.2.2.1 ⟨true, 300, 50, 300, 1000, false⟩
      (some (fun _ => .error .timeout))
      (newEngineState ⟨true, 300, 50, 300, 1000, false⟩) "git" 0 .timeout rfl rfl
      (by decide) rfl (by decide) rfl⟩

/-- C7: when the remote responds "- ls -la\n- ls -l\n" for input
"ls ", the parsed suggestions are exactly ["ls -la", "ls -l"], they
are returned fresh, they are stored under the exact key "ls ", and a
later call before the TTL elapses returns the identical list from the
cache. -/
theorem remote_success_parse_cache_roundtrip (cfg : AiConfig)
    (f : String → Except ClientError String) (st : EngineState) (t tq : Nat)
    (hen : cfg.enabled = true)
    (hmiss : get_from_cache st.cache "ls " t = none)
    (hallow : (st.limiter.allow_request t).1 = true)
    (hresp : f (userPrompt "ls ") = .ok "- ls -la\n- ls -l\n")
    (htq : tq < t + cfg.cache_ttl_secs * 1000) :
    (get_suggestions_immediate cfg (some f) st "ls " t).res =
      .ok ⟨["ls -la", "ls -l"], false, false⟩ ∧
    get_from_cache (get_suggestions_immediate cfg (some f) st "ls " t).st.cache "ls " tq =
      some ["ls -la", "ls -l"] ∧
    (get_suggestions_immediate cfg (some f)
        (get_suggestions_immediate cfg (some f) st "ls " t).st "ls " tq).res =
      .ok ⟨["ls -la", "ls -l"], true, false⟩ := by
  have hne : strTrim "ls " ≠ "" := by decide
  have hb := guard_false hen hne
  have hparse : parseSuggestions "- ls -la\n- ls -l\n" = ["ls -la", "ls -l"] := by decide
  have hfetch : fetch_suggestions (some f) "ls " = .ok ["ls -la", "ls -l"] := by
    simp [fetch_suggestions, hresp, hparse]
  have h1 : get_suggestions_immediate cfg (some f) st "ls " t =
      ⟨.ok ⟨["ls -la", "ls -l"], false, false⟩,
       ⟨add_to_cache cfg st.cache "ls " ["ls -la", "ls -l"] t,
        (st.limiter.allow_request t).2, st.pending⟩, ["ls "]⟩ := by
    rw [immediate_miss hb hmiss, rateAndFetch_ok hallow hfetch]
  have h2 : get_from_cache (add_to_cache cfg st.cache "ls " ["ls -la", "ls -l"] t)
      "ls " tq = some ["ls -la", "ls -l"] := by
    rw [get_from_cache_add, if_pos htq]
  refine ⟨by rw [h1], by rw [h1]; exact h2, ?_⟩
  rw [h1, immediate_cache_hit hb h2]

/-- Witness for C7 at the default configuration, insert at 0 ms and
re-query at 5 ms. -/
theorem remote_success_parse_cache_roundtrip_witness :
    (get_suggestions_immediate cfgDefault (some (fun _ => .ok "- ls -la\n- ls -l\n"))
        (newEngineState cfgDefault) "ls " 0).res =
      .ok ⟨["ls -la", "ls -l"], false, false⟩ ∧
    get_from_cache (get_suggestions_immediate cfgDefault
        (some (fun _ => .ok "- ls -la\n- ls -l\n"))
        (newEngineState cfgDefault) "ls " 0).st.cache "ls " 5 =
      some ["ls -la", "ls -l"] ∧
    (get_suggestions_immediate cfgDefault (some (fun _ => .ok "- ls -la\n- ls -l\n"))
        (get_suggestions_immediate cfgDefault (some (fun _ => .ok "- ls -la\n- ls -l\n"))
          (newEngineState cfgDefault) "ls " 0).st "ls " 5).res =
      .ok ⟨["ls -la", "ls -l"], true, false⟩ :=
  remote_success_parse_cache_roundtrip cfgDefault (fun _ => .ok "- ls -la\n- ls -l\n")
    (newEngineState cfgDefault) 0 5 rfl rfl (by decide) rfl (by decide)

/-- C8: for a disabled engine or an input that trims to empty, both
public operations return an empty, non-cached, non-fallback success,
leave the engine state (cache, rate limiter, pending token) untouched
and never reach the remote stage. -/
theorem disabled_or_blank_is_noop_success (cfg : AiConfig) (remote : Remote)
    (st : EngineState) (input : String) (now t0 t1 : Nat)
    (h : cfg.enabled = false ∨ strTrim input = "") :
    get_suggestions_immediate cfg remote st input now =
      ⟨.ok ⟨[], false, false⟩, st, []⟩ ∧
    get_suggestions cfg remote st input t0 t1 =
      ⟨.ok ⟨[], false, false⟩, st, []⟩ := by
  have hg : (!cfg.enabled || strTrim input == "") = true := by
    rcases h with h | h <;> simp [h]
  exact ⟨immediate_early hg, by rw [get_suggestions, phase1_early hg]⟩

/-- Witness for C8: a disabled engine answering "git". -/
theorem disabled_or_blank_is_noop_success_witness :
    get_suggestions_immediate ⟨false, 300, 50, 300, 1000, true⟩ remoteStub
        (newEngineState ⟨false, 300, 50, 300, 1000, true⟩) "git" 0 =
      ⟨.ok ⟨[], false, false⟩, newEngineState ⟨false, 300, 50, 300, 1000, true⟩, []⟩ ∧
    get_suggestions ⟨false, 300, 50, 300, 1000, true⟩ remoteStub
        (newEngineState ⟨false, 300, 50, 300, 1000, true⟩) "git" 0 300 =
      ⟨.ok ⟨[], false, false⟩, newEngineState ⟨false, 300, 50, 300, 1000, true⟩, []⟩ :=
  disabled_or_blank_is_noop_success ⟨false, 300, 50, 300, 1000, true⟩ remoteStub
    (newEngineState ⟨false, 300, 50, 300, 1000, true⟩) "git" 0 0 300 (Or.inl rfl)

/-- C9 counterexample: a limiter with limit 1 whose single recorded
timestamp is 100 seconds old has zero attempts inside the trailing
window — yet `time_until_available` does not return none (it returns
some 0), because the stored, unpruned list is what is compared to the
limit. -/
theorem time_until_available_counterexample :
    ¬ ((RateLimiter.time_until_available ⟨[0], 1, 60000⟩ 100000 = none) ↔
        (((⟨[0], 1, 60000⟩ : RateLimiter).timestamps.filter
            (fun ts => decide (100000 - ts < (⟨[0], 1, 60000⟩ : RateLimiter).window))).length <
          (⟨[0], 1, 60000⟩ : RateLimiter).max_requests)) := by
  decide

/-- C9 as amended: `time_until_available` returns none exactly when
fewer timestamps are stored (stale ones included — pruning only
happens in `allow_request`) than the limit, or none are stored at
all; otherwise it returns the time until the oldest stored timestamp
exits the window, clamped at zero. -/
theorem time_until_available_characterization (rl : RateLimiter) (now : Nat) :
    (rl.time_until_available now = none ↔
      (rl.timestamps.length < rl.max_requests ∨ rl.timestamps = [])) ∧
    (∀ t ts, rl.timestamps = t :: ts → rl.max_requests ≤ rl.timestamps.length →
      rl.time_until_available now =
        some (if now - t < rl.window then rl.window - (now - t) else 0)) := by
  constructor
  · cases hts : rl.timestamps with
    | nil =>
      simp only [RateLimiter.time_until_available, hts]
      split <;> simp
    | cons t ts =>
      simp only [RateLimiter.time_until_available, hts]
      by_cases h : (t :: ts).length < rl.max_requests
      · simp [h]
      · simp [h]
  · intro t ts hts hge
    rw [hts] at hge
    simp only [RateLimiter.time_until_available, hts]
    rw [if_neg (by omega)]
    rfl

/-- Witness for the amended C9: one 5 ms-old timestamp against limit
1 yields a 59995 ms wait. -/
theorem time_until_available_characterization_witness :
    RateLimiter.time_until_available ⟨[5], 1, 60000⟩ 10 = some 59995 := by
  have h := (time_until_available_characterization ⟨[5], 1, 60000⟩ 10).2 5 [] rfl (by decide)
  rw [h]
  decide

end LaraShell
